import Mathlib

set_option maxHeartbeats 1000000

namespace Backtester

/-! Scalar values.

A cell value as it appears in the JSON payload and in the pandas DataFrame:
a string, a decimal number `m / 10 ^ e` (JSON numbers arriving over the wire
are finite decimals; exact rational arithmetic stands in for Python floats),
or the missing-value marker NaN that pandas inserts for absent keys. -/

inductive Value where
  | str (s : String)
  | dec (m : Int) (e : Nat)
  | nan
  deriving DecidableEq

def decVal (m : Int) (e : Nat) : ℚ := (m : ℚ) / 10 ^ e

def Value.toRat : Value → Option ℚ
  | .dec m e => some (decVal m e)
  | _ => none

/-! Digit strings and decimal rendering/parsing. -/

def digitsVal (l : List Char) : Nat :=
  l.foldl (fun a c => 10 * a + (c.toNat - 48)) 0

def natToDigitsAux (fuel n : Nat) : List Char :=
  match fuel with
  | 0 => []
  | fuel + 1 =>
    if n < 10 then [Nat.digitChar n]
    else natToDigitsAux fuel (n / 10) ++ [Nat.digitChar (n % 10)]

/-- Most-significant-first decimal digits of `n` (fuel-based structural
recursion so that it evaluates inside the kernel). -/
def natToDigits (n : Nat) : List Char := natToDigitsAux (n + 1) n

def padZeros (k : Nat) (l : List Char) : List Char :=
  List.replicate (k - l.length) '0' ++ l

/-- Insert a decimal point before the last `e` characters. -/
def insertPoint (ds : List Char) (e : Nat) : List Char :=
  ds.take (ds.length - e) ++ '.' :: ds.drop (ds.length - e)

/-- Unsigned decimal rendering of `n / 10 ^ e`: the digits of `n` left-padded
with zeros to at least `e + 1` digits, with a point before the last `e`
digits (no point when `e = 0`). -/
def renderUDec (n e : Nat) : List Char :=
  if e = 0 then padZeros (e + 1) (natToDigits n)
  else insertPoint (padZeros (e + 1) (natToDigits n)) e

/-- Decimal rendering of `m / 10 ^ e`, with a leading minus sign for negative
`m`. This is how a finite-decimal float value prints in Python (and in a
pandas CSV cell). -/
def renderDec (m : Int) (e : Nat) : List Char :=
  if m < 0 then '-' :: renderUDec m.natAbs e else renderUDec m.natAbs e

def isDigitC (c : Char) : Bool := 48 ≤ c.toNat && c.toNat ≤ 57

/-- Split a character list at every occurrence of `c` (separators consumed). -/
def splitOnChar (c : Char) : List Char → List (List Char)
  | [] => [[]]
  | x :: xs =>
    if x = c then [] :: splitOnChar c xs
    else
      match splitOnChar c xs with
      | [] => [[x]]
      | y :: ys => (x :: y) :: ys

/-- Join character lists with a single separator character. -/
def joinWith (c : Char) : List (List Char) → List Char
  | [] => []
  | [xs] => xs
  | xs :: xss => xs ++ c :: joinWith c xss

def isDigits (l : List Char) : Bool := !l.isEmpty && l.all isDigitC

/-- Parse an unsigned decimal numeral, with an optional fractional part. -/
def parseUnsigned (l : List Char) : Option ℚ :=
  match splitOnChar '.' l with
  | [ip] => if isDigits ip then some ((digitsVal ip : ℚ)) else none
  | [ip, fp] =>
    if isDigits ip && isDigits fp then
      some ((digitsVal ip : ℚ) + (digitsVal fp : ℚ) / 10 ^ fp.length)
    else none
  | _ => none

/-- Parse a signed decimal numeral, the way a CSV reader recovers a numeric
column value from its textual cell. -/
def parseNumber (l : List Char) : Option ℚ :=
  if l.head? = some '-' then (parseUnsigned l.tail).map (fun q => -q)
  else parseUnsigned l

/-! The pandas DataFrame model (just what `frontend.py` uses). -/

/-- A JSON object / Python dict: an association list from keys to values
(the first binding for a key wins, as in `dict`). -/
abbrev Row := List (String × Value)

structure DF where
  cols : List String
  rows : List (List Value)
  deriving DecidableEq

/-- Column set of `pd.DataFrame(list_of_dicts)`: the union of the dicts' key
sets, in order of first appearance. -/
def unionKeys (dicts : List Row) : List String :=
  dicts.foldl (fun acc r => acc ++ (r.map Prod.fst).filter (fun k => !acc.contains k)) []

/-- Model of `pd.DataFrame(list_of_dicts)`: columns are the union of the keys; a row
missing a key gets NaN in that column. -/
def mkDF (dicts : List Row) : DF :=
  let cs := unionKeys dicts
  ⟨cs, dicts.map (fun d => cs.map (fun c => (List.lookup c d).getD .nan))⟩

/-- Model of `if col not in trade_df.columns: trade_df[col] = v` — append a constant
column when absent (frontend.py lines 193-195). -/
def addCol (df : DF) (c : String) (v : Value) : DF :=
  if c ∈ df.cols then df
  else ⟨df.cols ++ [c], df.rows.map (fun r => r ++ [v])⟩

/-- The loop `for col in ['entry_rsi', 'exit_rsi']: ...` of frontend.py
lines 193-195: synthesize the two optional columns as empty strings. -/
def ensureOptionalCols (df : DF) : DF :=
  addCol (addCol df "entry_rsi" (.str "")) "exit_rsi" (.str "")

def cellAt (cols : List String) (row : List Value) (c : String) : Value :=
  (row[cols.indexOf c]?).getD .nan

/-- Model of `df[column_list]`: reindex the columns in the given order; pandas raises
KeyError when a requested column is absent (frontend.py line 198). -/
def selectCols (df : DF) (cs : List String) : Except String DF :=
  if cs.all (fun c => df.cols.contains c) then
    .ok ⟨cs, df.rows.map (fun r => cs.map (fun c => cellAt df.cols r c))⟩
  else .error "KeyError: columns not in index"

/-- Source: frontend.py lines 196-197. -/
def display_columns : List String :=
  ["symbol", "trade_type", "entry_time", "entry_price",
   "entry_rsi", "exit_time", "exit_price", "exit_rsi", "profit_pct"]

/-- How a cell prints in a CSV: strings verbatim, decimals via `renderDec`,
NaN as the empty cell (pandas' `to_csv` default). -/
def renderCell : Value → List Char
  | .str s => s.data
  | .dec m e => renderDec m e
  | .nan => []

/-- Model of `trade_df.to_csv(index=False)` (frontend.py line 205): a header line of
column names, then one comma-joined line per row, joined by newlines, with a
trailing newline. (Quoting of separator characters inside cells is not
modelled; the round-trip theorem assumes cells free of commas and newlines.) -/
def toCsv (df : DF) : String :=
  String.mk (joinWith '\n'
    (((df.cols.map (fun s => s.data)) :: df.rows.map (fun r => r.map renderCell)).map
      (joinWith ',')) ++ ['\n'])

def dropTrailingEmpty (l : List (List Char)) : List (List Char) :=
  match l.reverse with
  | [] :: rest => rest.reverse
  | _ => l

/-- Re-parsing an exported CSV (the round trip of spec §8): split into lines
(ignoring the trailing newline), then split each line at commas. -/
def parseCsv (s : String) : List (List String) :=
  (dropTrailingEmpty (splitOnChar '\n' s.data)).map
    (fun line => (splitOnChar ',' line).map String.mk)

/-! Python-level helpers used by the rendering code. -/

/-- Model of `str(x)` on a cell value. -/
def pyStr : Value → String
  | .str s => s
  | .dec m e => String.mk (renderDec m e)
  | .nan => "nan"

/-- Truncation toward zero, Python's `int(...)` on a number. -/
def truncToInt (q : ℚ) : Int := if 0 ≤ q then ⌊q⌋ else ⌈q⌉

/-- Model of `int(winning / total * 100)` (frontend.py line 177): true division —
raising ZeroDivisionError on a zero divisor and TypeError on non-numeric
operands — then multiplication by 100 and truncation toward zero. In exact
arithmetic `(mw/10^ew) / (mt/10^et) * 100 = (mw·100·10^et) / (mt·10^ew)`,
and `Int.tdiv` is truncation toward zero; `winPct_eq_trunc` below states the
correspondence with the rational-number formulation. -/
def winPct (winning total : Value) : Except String Int :=
  match winning, total with
  | .dec mw ew, .dec mt et =>
    if mt = 0 then .error "division by zero"
    else .ok ((mw * 100 * 10 ^ et).tdiv (mt * 10 ^ ew))
  | _, _ => .error "unsupported operand type for division"

/-- Python format `f"{x:.2f}"` on a cell, in exact arithmetic: round the
value half-up to two decimal places and print with exactly two decimals.
`(200·m + 10^e) / (2·10^e)` with floor division is `⌊m/10^e · 100 + 1/2⌋`
(`fmt2f_dec_floor` below). Formatting a string cell with a float format
code raises ValueError; NaN prints as "nan". -/
def fmt2f : Value → Except String String
  | .dec m e => .ok (String.mk (renderDec ((200 * m + 10 ^ e) / (2 * 10 ^ e : Int)) 2))
  | .nan => .ok "nan"
  | .str _ => .error "Unknown format code for str"

/-- The `.apply(lambda x: f"{x:.2f}%")` step on the profit column
(frontend.py line 199). -/
def fmtPctCell (v : Value) : Except String Value :=
  (fmt2f v).map (fun s => .str (s ++ "%"))

def mapE (f : α → Except String β) : List α → Except String (List β)
  | [] => .ok []
  | x :: xs => do
    let y ← f x
    let ys ← mapE f xs
    .ok (y :: ys)

/-- Apply a fallible function to the element at one position (used for a
single-column `.apply`). -/
def setAtE (f : Value → Except String Value) : Nat → List Value → Except String (List Value)
  | _, [] => .ok []
  | 0, v :: vs => (f v).map (fun w => w :: vs)
  | j + 1, v :: vs => (setAtE f j vs).map (fun ws => v :: ws)

/-- Model of `df[c] = df[c].apply(f)` for a fallible `f` — every row's cell in column
`c` is replaced, stopping at the first raised exception. -/
def mapColE (df : DF) (c : String) (f : Value → Except String Value) : Except String DF := do
  let rows ← mapE (setAtE f (df.cols.indexOf c)) df.rows
  .ok ⟨df.cols, rows⟩

/-! Streamlit UI elements, session state, and the request payload. -/

/-- One rendered Streamlit element, in emission order. -/
inductive Display where
  | subheader (s : String)
  | metric (label value : String)
  | image (src : String)
  | info (s : String)
  | success (s : String)
  | error (s : String)
  | dataframe (df : DF)
  | download (fileName : String) (csvData : String)
  | expander (title : String)
  deriving DecidableEq

/-- Model of `st.session_state` as used by frontend.py: the exchange list fetched at
startup, the symbol list (absent until the first fetch), and the two widget
keys. There is deliberately NO field for a backtest result: the script never
stores one (no `st.session_state` assignment exists in the submit handler,
frontend.py lines 146-223). -/
structure SessionState where
  exchanges : List String
  symbols : Option (List String)
  selected_exchange : Option String
  selected_symbol : Option String
  deriving DecidableEq

/-- A JSON value in the request payload. -/
inductive PVal where
  | s (v : String)
  | i (v : Int)
  | f (m : Int) (e : Nat)
  | b (v : Bool)
  | null
  deriving DecidableEq

/-- Sidebar widget values at submission time. -/
structure Widgets where
  username : String
  rsi_period : Int
  buy_threshold : Int × Nat
  sell_threshold : Int × Nat
  trade_type : String
  strategy : String
  ma_period : Int
  use_scratch_rsi : Bool
  use_csv : Bool
  deriving DecidableEq

/-- The `payload` dict of frontend.py lines 148-160, built unconditionally
with the same eleven keys whatever the selected strategy. `symbol` uses
`st.session_state.get("selected_symbol", "BTC/USDT")`. -/
def buildPayload (st : SessionState) (w : Widgets) : List (String × PVal) :=
  [("exchange", match st.selected_exchange with | some e => .s e | none => .null),
   ("symbol", .s (st.selected_symbol.getD "BTC/USDT")),
   ("username", .s w.username),
   ("rsi_period", .i w.rsi_period),
   ("buy_threshold", .f w.buy_threshold.1 w.buy_threshold.2),
   ("sell_threshold", .f w.sell_threshold.1 w.sell_threshold.2),
   ("trade_type", .s w.trade_type),
   ("strategy", .s w.strategy),
   ("ma_period", .i w.ma_period),
   ("use_scratch_rsi", .b w.use_scratch_rsi),
   ("use_csv", .b w.use_csv)]

/-- Model of `str()` of a payload value, as interpolated into f-strings. -/
def pvalStr : PVal → String
  | .s v => v
  | .i v => toString v
  | .f m e => String.mk (renderDec m e)
  | .b true => "True"
  | .b false => "False"
  | .null => "None"

/-- Model of `payload['k']` rendered as text; the built payload always holds its
eleven keys, so the missing-key (KeyError) case is unreachable here. -/
def payloadField (p : List (String × PVal)) (k : String) : String :=
  match List.lookup k p with
  | some v => pvalStr v
  | none => ""

/-- Model of `payload['symbol'].replace('/', '')` (frontend.py line 209). -/
def removeSlashes (s : String) : String :=
  String.mk (s.data.filter (fun c => c != '/'))

/-! The `/trade` response and the results rendering (frontend.py 161-223). -/

/-- The decoded 200-response JSON, after the `result.get(...)` defaults of
frontend.py lines 165-168 (`trades`/`data` default to `[]`, `plot` to `""`,
`summary` to `{}`). -/
structure TradeResponse where
  trades : List Row
  data : List Row
  plot : String
  summary : Row
  deriving DecidableEq

/-- An HTTP response from the backend: status code, raw body text, and the
decoded JSON (consulted only on status 200). -/
structure HttpResponse where
  status : Nat
  text : String
  json : TradeResponse
  deriving DecidableEq

/-- Sequencing of Streamlit emission under Python exceptions: elements
already emitted stay visible; once an exception is pending, nothing further
runs. The second component is the pending exception text, if any. -/
def seqEmit (a : List Display × Option String) (b : List Display × Option String) :
    List Display × Option String :=
  match a with
  | (ds, some e) => (ds, some e)
  | (ds, none) => (ds ++ b.1, b.2)

/-- Model of frontend.py lines 170-181: the results header and the four summary
metrics. `summary.get('total_trades', 1)` defaults to 1 only when the key is
absent; a present 0 reaches the division. -/
def summarySection (p : List (String × PVal)) (summary : Row) :
    List Display × Option String :=
  let d1 := [Display.subheader
               ("Backtest Results for " ++ payloadField p "symbol" ++ " on " ++
                payloadField p "exchange"),
             Display.metric "Total Trades"
               (pyStr ((List.lookup "total_trades" summary).getD (.dec 0 0)))]
  let winning := (List.lookup "winning_trades" summary).getD (.dec 0 0)
  let total := (List.lookup "total_trades" summary).getD (.dec 1 0)
  match winPct winning total with
  | .error e => (d1, some e)
  | .ok pct =>
    let d2 := d1 ++ [Display.metric "Winning Trades"
                       (pyStr winning ++ " (" ++ toString pct ++ "%)")]
    match fmt2f ((List.lookup "total_profit_pct" summary).getD (.dec 0 0)) with
    | .error e => (d2, some e)
    | .ok s3 =>
      let d3 := d2 ++ [Display.metric "Total Return" (s3 ++ "%")]
      match fmt2f ((List.lookup "avg_profit_per_trade" summary).getD (.dec 0 0)) with
      | .error e => (d3, some e)
      | .ok s4 => (d3 ++ [Display.metric "Avg. Trade" (s4 ++ "%")], none)

/-- Model of frontend.py lines 183-187: the plot, or an info box when the base64
string is empty (Python truthiness of the string). -/
def plotSection (plot : String) : List Display × Option String :=
  ([Display.subheader "📊 Technical Analysis Plot"] ++
    (if plot = "" then [Display.info "No plot available."]
     else [Display.image ("data:image/png;base64," ++ plot)]), none)

/-- Model of frontend.py lines 189-211: the shaped trade table and the CSV download.
`date` is the client-side `datetime.datetime.now().strftime('%Y%m%d')` at
rendering time. Note the file name concatenates the slash-stripped symbol
and the date with NO separator (line 209). -/
def tradesSection (p : List (String × PVal)) (date : String) (trades : List Row) :
    List Display × Option String :=
  if trades.isEmpty then
    ([Display.subheader "📋 Trade Details",
      Display.info "No trades executed. Adjust parameters."], none)
  else
    match selectCols (ensureOptionalCols (mkDF trades)) display_columns with
    | .error e => ([Display.subheader "📋 Trade Details"], some e)
    | .ok sel =>
      match mapColE sel "profit_pct" fmtPctCell with
      | .error e => ([Display.subheader "📋 Trade Details"], some e)
      | .ok trade_df_display =>
        ([Display.subheader "📋 Trade Details",
          Display.dataframe trade_df_display,
          Display.download
            ("trades_" ++ removeSlashes (payloadField p "symbol") ++ date ++ ".csv")
            (toCsv (ensureOptionalCols (mkDF trades)))], none)

/-- Model of frontend.py lines 213-218: the collapsible historical-data table. -/
def histSection (hist : List Row) : List Display × Option String :=
  ([Display.expander "Historical Price and RSI Data"] ++
    (if hist.isEmpty then [Display.info "No historical data available."]
     else [Display.dataframe (mkDF hist)]), none)

/-- The whole 200-status rendering path (frontend.py lines 164-218),
with Streamlit's incremental emission under a pending exception. -/
def renderSuccess (p : List (String × PVal)) (date : String) (r : TradeResponse) :
    List Display × Option String :=
  seqEmit (summarySection p r.summary)
    (seqEmit (plotSection r.plot)
      (seqEmit (tradesSection p date r.trades) (histSection r.data)))

/-- Model of frontend.py lines 161-223: the `try` block around the POST and the
rendering. A transport failure, or any exception raised while rendering, is
caught and shown as `Connection error: {str(e)}` plus an info box; a non-200
response shows `Error: {response.text}`. -/
def runSubmit (p : List (String × PVal)) (date : String)
    (result : Except String HttpResponse) : List Display :=
  match result with
  | .error e =>
    [Display.error ("Connection error: " ++ e),
     Display.info "Ensure the backend server is running on http://127.0.0.1:8080"]
  | .ok resp =>
    if resp.status = 200 then
      match renderSuccess p date resp.json with
      | (ds, none) => ds
      | (ds, some e) =>
        ds ++ [Display.error ("Connection error: " ++ e),
               Display.info "Ensure the backend server is running on http://127.0.0.1:8080"]
    else [Display.error ("Error: " ++ resp.text)]

/-- One script run with the submit button pressed: the payload is built from
the current session state and widgets, exactly one `/trade` POST is issued
(the returned request list), the response is rendered, and the session state
is returned unchanged — the submit handler writes no session state. -/
def runTab1Submit (st : SessionState) (w : Widgets) (date : String)
    (result : Except String HttpResponse) :
    SessionState × List (List (String × PVal)) × List Display :=
  (st, [buildPayload st w], runSubmit (buildPayload st w) date result)

/-! The symbol fetch (frontend.py lines 67-75). -/

/-- The `/symbols` response: status code and `r2.json().get("symbols", [])`. -/
structure SymbolsHttpResponse where
  status : Nat
  symbols : List String
  deriving DecidableEq

/-- The 'Fetch Symbols' button handler: on 200, `st.session_state.symbols`
is assigned the returned list (destructive replacement); on any other
status, it is assigned the empty list. -/
def runFetchSymbols (st : SessionState) (exchange : String) (r : SymbolsHttpResponse) :
    SessionState × List Display :=
  if r.status = 200 then
    ({st with symbols := some r.symbols},
     [Display.success ("Symbols loaded for " ++ exchange ++ ".")])
  else
    ({st with symbols := some []}, [Display.error "Error fetching symbols."])

/-! Lemmas: digit strings. -/

lemma digitsVal_foldl (acc : Nat) (l : List Char) :
    l.foldl (fun a c => 10 * a + (c.toNat - 48)) acc = acc * 10 ^ l.length + digitsVal l := by
  induction l generalizing acc with
  | nil => simp [digitsVal]
  | cons c l ih =>
    simp only [List.foldl_cons, List.length_cons, digitsVal]
    rw [ih, ih (10 * 0 + (c.toNat - 48))]
    ring

lemma digitsVal_cons (c : Char) (l : List Char) :
    digitsVal (c :: l) = (c.toNat - 48) * 10 ^ l.length + digitsVal l := by
  show List.foldl _ _ (c :: l) = _
  rw [List.foldl_cons]
  simpa using digitsVal_foldl (10 * 0 + (c.toNat - 48)) l

lemma digitsVal_append (a b : List Char) :
    digitsVal (a ++ b) = digitsVal a * 10 ^ b.length + digitsVal b := by
  unfold digitsVal
  rw [List.foldl_append]
  exact digitsVal_foldl _ b

lemma digitChar_val {d : Nat} (h : d < 10) : (Nat.digitChar d).toNat - 48 = d := by
  interval_cases d <;> decide

lemma isDigitC_digitChar {d : Nat} (h : d < 10) : isDigitC (Nat.digitChar d) = true := by
  interval_cases d <;> decide

lemma natToDigitsAux_irrel (f₁ : Nat) :
    ∀ f₂ n, n < f₁ → n < f₂ → natToDigitsAux f₁ n = natToDigitsAux f₂ n := by
  induction f₁ with
  | zero => omega
  | succ g₁ ih =>
    intro f₂ n h₁ h₂
    cases f₂ with
    | zero => omega
    | succ g₂ =>
      unfold natToDigitsAux
      by_cases h10 : n < 10
      · rw [if_pos h10, if_pos h10]
      · rw [if_neg h10, if_neg h10]
        have hd : n / 10 < n := Nat.div_lt_self (by omega) (by omega)
        rw [ih g₂ (n / 10) (by omega) (by omega)]

lemma natToDigitsAux_succ (fuel n : Nat) :
    natToDigitsAux (fuel + 1) n =
      if n < 10 then [Nat.digitChar n]
      else natToDigitsAux fuel (n / 10) ++ [Nat.digitChar (n % 10)] := rfl

lemma natToDigits_unfold (n : Nat) :
    natToDigits n =
      if n < 10 then [Nat.digitChar n]
      else natToDigits (n / 10) ++ [Nat.digitChar (n % 10)] := by
  show natToDigitsAux (n + 1) n = _
  rw [natToDigitsAux_succ]
  by_cases h10 : n < 10
  · rw [if_pos h10, if_pos h10]
  · rw [if_neg h10, if_neg h10]
    have hd : n / 10 < n := Nat.div_lt_self (by omega) (by omega)
    rw [natToDigitsAux_irrel n (n / 10 + 1) (n / 10) (by omega) (by omega)]
    rfl

lemma digitsVal_natToDigits (n : Nat) : digitsVal (natToDigits n) = n := by
  induction n using Nat.strong_induction_on with
  | _ n ih =>
    rw [natToDigits_unfold]
    split
    · rename_i h
      simp [digitsVal, digitChar_val h]
    · rename_i h
      rw [digitsVal_append, ih (n / 10) (Nat.div_lt_self (by omega) (by omega))]
      have h10 : n % 10 < 10 := Nat.mod_lt _ (by omega)
      simp [digitsVal, digitChar_val h10]
      omega

lemma natToDigits_ne_nil (n : Nat) : natToDigits n ≠ [] := by
  rw [natToDigits_unfold]
  split
  · simp
  · simp

lemma isDigitC_of_mem_natToDigits {n : Nat} {c : Char} (h : c ∈ natToDigits n) :
    isDigitC c = true := by
  induction n using Nat.strong_induction_on with
  | _ n ih =>
    rw [natToDigits_unfold] at h
    split at h
    · rename_i hlt
      simp at h
      subst h
      exact isDigitC_digitChar hlt
    · rename_i hlt
      rcases List.mem_append.mp h with h1 | h2
      · exact ih (n / 10) (Nat.div_lt_self (by omega) (by omega)) h1
      · simp at h2
        subst h2
        exact isDigitC_digitChar (Nat.mod_lt _ (by omega))

lemma digitsVal_replicate_zeros (k : Nat) (l : List Char) :
    digitsVal (List.replicate k '0' ++ l) = digitsVal l := by
  unfold digitsVal
  rw [List.foldl_append]
  have hz : List.foldl (fun a c => 10 * a + (c.toNat - 48)) 0 (List.replicate k '0') = 0 := by
    induction k with
    | zero => rfl
    | succ k ihk => simpa [List.replicate_succ] using ihk
  rw [hz]

lemma digitsVal_padZeros (k : Nat) (l : List Char) :
    digitsVal (padZeros k l) = digitsVal l :=
  digitsVal_replicate_zeros _ _

lemma length_padZeros (k : Nat) (l : List Char) :
    (padZeros k l).length = max k l.length := by
  simp [padZeros]
  omega

lemma mem_padZeros {k : Nat} {l : List Char} {c : Char} (h : c ∈ padZeros k l) :
    c = '0' ∨ c ∈ l := by
  rcases List.mem_append.mp h with h1 | h2
  · exact Or.inl (List.eq_of_mem_replicate h1)
  · exact Or.inr h2

/-! Lemmas: splitting and joining. -/

lemma splitOnChar_nil (c : Char) : splitOnChar c [] = [[]] := rfl

lemma splitOnChar_ne_nil (c : Char) (l : List Char) : splitOnChar c l ≠ [] := by
  induction l with
  | nil => simp [splitOnChar]
  | cons x xs ih =>
    simp only [splitOnChar]
    split
    · simp
    · cases h : splitOnChar c xs with
      | nil => simp
      | cons y ys => simp

lemma splitOnChar_of_not_mem {c : Char} {l : List Char} (h : c ∉ l) :
    splitOnChar c l = [l] := by
  induction l with
  | nil => rfl
  | cons x xs ih =>
    have hx : ¬x = c := fun he => h (he ▸ List.mem_cons_self x xs)
    have hxs : c ∉ xs := fun hm => h (List.mem_cons_of_mem _ hm)
    simp only [splitOnChar, if_neg hx, ih hxs]

lemma splitOnChar_cons (c x : Char) (xs : List Char) :
    splitOnChar c (x :: xs) =
      if x = c then [] :: splitOnChar c xs
      else
        match splitOnChar c xs with
        | [] => [[x]]
        | y :: ys => (x :: y) :: ys := rfl

lemma splitOnChar_append {c : Char} {l₁ : List Char} (l₂ : List Char) (h : c ∉ l₁) :
    splitOnChar c (l₁ ++ c :: l₂) = l₁ :: splitOnChar c l₂ := by
  induction l₁ with
  | nil => simp [splitOnChar]
  | cons x xs ih =>
    have hx : ¬x = c := fun he => h (he ▸ List.mem_cons_self x xs)
    have hxs : c ∉ xs := fun hm => h (List.mem_cons_of_mem _ hm)
    rw [List.cons_append, splitOnChar_cons, if_neg hx, ih hxs]

lemma splitOnChar_append_last (c : Char) (l : List Char) :
    splitOnChar c (l ++ [c]) = splitOnChar c l ++ [[]] := by
  induction l with
  | nil => simp [splitOnChar]
  | cons x xs ih =>
    rw [List.cons_append, splitOnChar_cons, splitOnChar_cons, ih]
    by_cases hx : x = c
    · rw [if_pos hx, if_pos hx]
      simp
    · rw [if_neg hx, if_neg hx]
      cases h : splitOnChar c xs with
      | nil => exact absurd h (splitOnChar_ne_nil c xs)
      | cons y ys => rfl

lemma joinWith_nil (c : Char) : joinWith c [] = [] := rfl

lemma joinWith_single (c : Char) (xs : List Char) : joinWith c [xs] = xs := rfl

lemma joinWith_cons₂ (c : Char) (xs y : List Char) (yss : List (List Char)) :
    joinWith c (xs :: y :: yss) = xs ++ c :: joinWith c (y :: yss) := rfl

lemma splitOnChar_joinWith {c : Char} {xss : List (List Char)} (hne : xss ≠ [])
    (h : ∀ xs ∈ xss, c ∉ xs) : splitOnChar c (joinWith c xss) = xss := by
  induction xss with
  | nil => exact absurd rfl hne
  | cons xs xss ih =>
    cases xss with
    | nil =>
      rw [joinWith_single]
      exact splitOnChar_of_not_mem (h xs (List.mem_cons_self _ _))
    | cons y yss =>
      rw [joinWith_cons₂, splitOnChar_append _ (h xs (List.mem_cons_self _ _))]
      rw [ih (by simp) (fun zs hz => h zs (List.mem_cons_of_mem _ hz))]

lemma not_mem_joinWith {a c : Char} {xss : List (List Char)} (hac : a ≠ c)
    (h : ∀ xs ∈ xss, a ∉ xs) : a ∉ joinWith c xss := by
  induction xss with
  | nil => simp [joinWith]
  | cons xs xss ih =>
    cases xss with
    | nil =>
      rw [joinWith_single]
      exact h xs (List.mem_cons_self _ _)
    | cons y yss =>
      rw [joinWith_cons₂]
      intro hm
      rcases List.mem_append.mp hm with h1 | h2
      · exact h xs (List.mem_cons_self _ _) h1
      · rcases List.mem_cons.mp h2 with h3 | h4
        · exact hac h3
        · exact ih (fun zs hz => h zs (List.mem_cons_of_mem _ hz)) h4

lemma dropTrailingEmpty_append_empty (l : List (List Char)) :
    dropTrailingEmpty (l ++ [[]]) = l := by
  unfold dropTrailingEmpty
  rw [List.reverse_append]
  simp

/-! Lemmas: the decimal print/parse round trip. -/

lemma isDigitC_not_dot_dash {c : Char} (h : isDigitC c = true) : c ≠ '.' ∧ c ≠ '-' := by
  constructor <;> rintro rfl <;> exact absurd h (by decide)

lemma isDigits_true {l : List Char} (hne : l ≠ []) (h : ∀ c ∈ l, isDigitC c = true) :
    isDigits l = true := by
  unfold isDigits
  rw [List.all_eq_true.mpr h]
  cases l with
  | nil => exact absurd rfl hne
  | cons a t => rfl

lemma renderUDec_ds_digits (n e : Nat) :
    ∀ c ∈ padZeros (e + 1) (natToDigits n), isDigitC c = true := by
  intro c hc
  rcases mem_padZeros hc with h0 | hd
  · subst h0
    decide
  · exact isDigitC_of_mem_natToDigits hd

lemma parseUnsigned_renderUDec (n e : Nat) :
    parseUnsigned (renderUDec n e) = some ((n : ℚ) / 10 ^ e) := by
  have hdig := renderUDec_ds_digits n e
  set ds := padZeros (e + 1) (natToDigits n) with hds
  have hlen : e + 1 ≤ ds.length := by
    rw [hds, length_padZeros]
    omega
  have hval : digitsVal ds = n := by
    rw [hds, digitsVal_padZeros, digitsVal_natToDigits]
  have hdot : '.' ∉ ds := fun hm => (isDigitC_not_dot_dash (hdig _ hm)).1 rfl
  have hne : ds ≠ [] := by
    intro h
    rw [h] at hlen
    simp at hlen
  unfold renderUDec
  rw [← hds]
  by_cases he : e = 0
  · subst he
    rw [if_pos rfl]
    have hred : parseUnsigned ds = if isDigits ds then some ((digitsVal ds : ℚ)) else none := by
      unfold parseUnsigned
      rw [splitOnChar_of_not_mem hdot]
    rw [hred, if_pos (isDigits_true hne hdig), hval]
    norm_num
  · rw [if_neg he]
    unfold insertPoint
    set ip := ds.take (ds.length - e) with hip
    set fp := ds.drop (ds.length - e) with hfp
    have hiplen : ip.length = ds.length - e := by
      rw [hip, List.length_take]
      omega
    have hfplen : fp.length = e := by
      rw [hfp, List.length_drop]
      omega
    have hipne : ip ≠ [] := by
      intro h
      rw [h] at hiplen
      simp at hiplen
      omega
    have hfpne : fp ≠ [] := by
      intro h
      rw [h] at hfplen
      simp at hfplen
      omega
    have hipdig : ∀ c ∈ ip, isDigitC c = true :=
      fun c hc => hdig c (List.take_subset _ _ hc)
    have hfpdig : ∀ c ∈ fp, isDigitC c = true :=
      fun c hc => hdig c (List.drop_subset _ _ hc)
    have hipdot : '.' ∉ ip := fun hm => (isDigitC_not_dot_dash (hipdig _ hm)).1 rfl
    have hfpdot : '.' ∉ fp := fun hm => (isDigitC_not_dot_dash (hfpdig _ hm)).1 rfl
    have hred : parseUnsigned (ip ++ '.' :: fp) =
        if (isDigits ip && isDigits fp) then
          some ((digitsVal ip : ℚ) + (digitsVal fp : ℚ) / 10 ^ fp.length)
        else none := by
      unfold parseUnsigned
      rw [splitOnChar_append fp hipdot, splitOnChar_of_not_mem hfpdot]
    rw [hred, if_pos (by rw [isDigits_true hipne hipdig, isDigits_true hfpne hfpdig]; rfl)]
    have key : digitsVal ip * 10 ^ e + digitsVal fp = n := by
      rw [← hval]
      conv_rhs => rw [← List.take_append_drop (ds.length - e) ds]
      rw [digitsVal_append, ← hip, ← hfp, hfplen]
    have h10 : ((10 : ℚ)) ^ e ≠ 0 := pow_ne_zero _ (by norm_num)
    rw [hfplen]
    congr 1
    field_simp
    have hcast : ((digitsVal ip * 10 ^ e + digitsVal fp : Nat) : ℚ) = (n : ℚ) := by
      exact_mod_cast congrArg (fun k : Nat => (k : ℚ)) key
    push_cast at hcast
    linarith

lemma renderUDec_head (n e : Nat) :
    ∃ d rest, renderUDec n e = d :: rest ∧ isDigitC d = true := by
  have hdig := renderUDec_ds_digits n e
  set ds := padZeros (e + 1) (natToDigits n) with hds
  have hlen : e + 1 ≤ ds.length := by
    rw [hds, length_padZeros]
    omega
  unfold renderUDec
  rw [← hds]
  by_cases he : e = 0
  · subst he
    rw [if_pos rfl]
    cases h : ds with
    | nil =>
      rw [h] at hlen
      simp at hlen
    | cons d rest =>
      exact ⟨d, rest, rfl, hdig d (h ▸ List.mem_cons_self _ _)⟩
  · rw [if_neg he]
    unfold insertPoint
    cases h : ds.take (ds.length - e) with
    | nil =>
      have htl : (ds.take (ds.length - e)).length = ds.length - e := by
        rw [List.length_take]
        omega
      rw [h] at htl
      simp at htl
      omega
    | cons d rest =>
      refine ⟨d, rest ++ '.' :: ds.drop (ds.length - e), rfl, ?_⟩
      exact hdig d (List.take_subset _ _ (h ▸ List.mem_cons_self d rest))

/-- The decimal printer and the CSV-side numeric parser are inverse: parsing
the rendering of `m / 10 ^ e` recovers exactly that rational value. -/
theorem parseNumber_renderDec (m : Int) (e : Nat) :
    parseNumber (renderDec m e) = some (decVal m e) := by
  obtain ⟨d, rest, hcons, hd⟩ := renderUDec_head m.natAbs e
  have hdne : d ≠ '-' := (isDigitC_not_dot_dash hd).2
  unfold renderDec parseNumber
  by_cases hm : m < 0
  · rw [if_pos hm]
    have hh : ('-' :: renderUDec m.natAbs e).head? = some '-' := rfl
    rw [if_pos hh]
    have ht : ('-' :: renderUDec m.natAbs e).tail = renderUDec m.natAbs e := rfl
    rw [ht, parseUnsigned_renderUDec]
    have h1 : (m.natAbs : Int) = -m := by omega
    have habs : ((m.natAbs : ℚ)) = -(m : ℚ) := by
      rw [← Int.cast_natCast (R := ℚ), h1, Int.cast_neg]
    rw [decVal, Option.map_some', habs]
    congr 1
    ring
  · rw [if_neg hm]
    have hhead : (renderUDec m.natAbs e).head? ≠ some '-' := by
      rw [hcons]
      simp [hdne]
    rw [if_neg hhead, parseUnsigned_renderUDec]
    have h1 : (m.natAbs : Int) = m := by omega
    have habs : ((m.natAbs : ℚ)) = (m : ℚ) := by
      rw [← Int.cast_natCast (R := ℚ), h1]
    rw [decVal, habs]

/-! Lemmas: the integer formulations of the display arithmetic agree with
the exact rational-number semantics of the Python expressions. -/

lemma truncToInt_intCast_div {a b : Int} (hb : 0 < b) :
    truncToInt ((a : ℚ) / (b : ℚ)) = a.tdiv b := by
  have hbQ : (0 : ℚ) < (b : ℚ) := by exact_mod_cast hb
  have hcast : ((b : ℚ)) = ((b.toNat : ℕ) : ℚ) :=
    by exact_mod_cast (congrArg (fun z : ℤ => (z : ℚ)) (Int.toNat_of_nonneg hb.le)).symm
  by_cases ha : 0 ≤ a
  · have hq : 0 ≤ (a : ℚ) / (b : ℚ) := div_nonneg (by exact_mod_cast ha) hbQ.le
    rw [truncToInt, if_pos hq, hcast, Rat.floor_intCast_div_natCast,
      Int.toNat_of_nonneg hb.le, Int.tdiv_eq_ediv ha hb.le]
  · push_neg at ha
    have hq : (a : ℚ) / (b : ℚ) < 0 :=
      div_neg_of_neg_of_pos (by exact_mod_cast ha) hbQ
    rw [truncToInt, if_neg (not_le.mpr hq)]
    have hceil : ⌈(a : ℚ) / (b : ℚ)⌉ = -⌊-((a : ℚ) / (b : ℚ))⌋ := by
      rw [Int.floor_neg]
      ring
    rw [hceil]
    have hneg : -((a : ℚ) / (b : ℚ)) = ((-a : ℤ) : ℚ) / (b : ℚ) := by
      push_cast
      ring
    rw [hneg, hcast, Rat.floor_intCast_div_natCast, Int.toNat_of_nonneg hb.le,
      ← Int.tdiv_eq_ediv (by omega) hb.le, Int.neg_tdiv]
    ring

/-- The integer computation in `winPct` is the truncation toward zero of the
exact value of `winning / total * 100`. -/
lemma winPct_eq_trunc {mw mt : Int} {ew et : Nat} (h : 0 < mt) :
    winPct (.dec mw ew) (.dec mt et) =
      .ok (truncToInt (decVal mw ew / decVal mt et * 100)) := by
  rw [show winPct (.dec mw ew) (.dec mt et) =
      (if mt = 0 then Except.error "division by zero"
       else Except.ok ((mw * 100 * 10 ^ et).tdiv (mt * 10 ^ ew))) from rfl]
  rw [if_neg (by omega)]
  have hbpos : (0 : ℤ) < mt * 10 ^ ew :=
    mul_pos h (pow_pos (by norm_num) _)
  have hval : decVal mw ew / decVal mt et * 100 =
      ((mw * 100 * 10 ^ et : ℤ) : ℚ) / ((mt * 10 ^ ew : ℤ) : ℚ) := by
    unfold decVal
    have h1 : ((10 : ℚ)) ^ ew ≠ 0 := pow_ne_zero _ (by norm_num)
    have h2 : ((10 : ℚ)) ^ et ≠ 0 := pow_ne_zero _ (by norm_num)
    have h3 : (mt : ℚ) ≠ 0 := by exact_mod_cast h.ne'
    push_cast
    field_simp
    ring
  rw [hval, truncToInt_intCast_div hbpos]

/-- The integer computation in `fmt2f` is the floor of the exact value of
`x·100 + 1/2` — i.e. the half-up rounding of `x` to two decimals. -/
lemma fmt2f_dec_floor (m : Int) (e : Nat) :
    fmt2f (.dec m e) =
      .ok (String.mk (renderDec ⌊decVal m e * 100 + 1 / 2⌋ 2)) := by
  have hval : decVal m e * 100 + 1 / 2 =
      ((200 * m + 10 ^ e : ℤ) : ℚ) / ((2 * 10 ^ e : ℕ) : ℚ) := by
    unfold decVal
    have h1 : ((10 : ℚ)) ^ e ≠ 0 := pow_ne_zero _ (by norm_num)
    push_cast
    field_simp
    ring
  have hfloor : ((200 * m + 10 ^ e) / (2 * 10 ^ e : Int)) =
      ⌊decVal m e * 100 + 1 / 2⌋ := by
    rw [hval, Rat.floor_intCast_div_natCast]
    push_cast
    ring_nf
  rw [show fmt2f (.dec m e) = Except.ok (String.mk
      (renderDec ((200 * m + 10 ^ e) / (2 * 10 ^ e : Int)) 2)) from rfl, hfloor]

/-! Lemmas: association-list lookup and DataFrame construction. -/

lemma lookup_isSome_iff (k : String) (r : Row) :
    (List.lookup k r).isSome ↔ k ∈ r.map Prod.fst := by
  induction r with
  | nil => simp
  | cons kv r ih =>
    obtain ⟨a, v⟩ := kv
    rw [List.lookup_cons]
    by_cases h : k = a
    · subst h
      simp
    · have hb : (k == a) = false := beq_false_of_ne h
      rw [hb]
      simp [h, ih]

lemma lookup_eq_none_iff (k : String) (r : Row) :
    List.lookup k r = none ↔ k ∉ r.map Prod.fst := by
  rw [← lookup_isSome_iff, Option.not_isSome_iff_eq_none]

lemma mem_of_lookup_eq_some {k : String} {r : Row} {v : Value}
    (h : List.lookup k r = some v) : (k, v) ∈ r := by
  induction r with
  | nil => simp [List.lookup] at h
  | cons kv r ih =>
    obtain ⟨a, w⟩ := kv
    rw [List.lookup_cons] at h
    by_cases hk : k = a
    · subst hk
      simp at h
      subst h
      exact List.mem_cons_self _ _
    · have hb : (k == a) = false := beq_false_of_ne hk
      rw [hb] at h
      exact List.mem_cons_of_mem _ (ih h)

lemma mem_unionKeys_aux (k : String) (rows : List Row) :
    ∀ acc : List String,
      (k ∈ rows.foldl
        (fun acc r => acc ++ (r.map Prod.fst).filter (fun s => !acc.contains s)) acc) ↔
      (k ∈ acc ∨ ∃ r ∈ rows, k ∈ r.map Prod.fst) := by
  induction rows with
  | nil => simp
  | cons r rows ih =>
    intro acc
    rw [List.foldl_cons, ih]
    have hstep : k ∈ acc ++ (r.map Prod.fst).filter (fun s => !acc.contains s) ↔
        k ∈ acc ∨ k ∈ r.map Prod.fst := by
      rw [List.mem_append, List.mem_filter]
      constructor
      · rintro (h | ⟨h, _⟩)
        · exact Or.inl h
        · exact Or.inr h
      · rintro (h | h)
        · exact Or.inl h
        · by_cases ha : k ∈ acc
          · exact Or.inl ha
          · refine Or.inr ⟨h, ?_⟩
            simp [List.contains, List.elem_iff, ha]
    rw [hstep]
    simp only [List.mem_cons]
    constructor
    · rintro ((h | h) | ⟨r', hr', hk⟩)
      · exact Or.inl h
      · exact Or.inr ⟨r, Or.inl rfl, h⟩
      · exact Or.inr ⟨r', Or.inr hr', hk⟩
    · rintro (h | ⟨r', hr' | hr', hk⟩)
      · exact Or.inl (Or.inl h)
      · subst hr'
        exact Or.inl (Or.inr hk)
      · exact Or.inr ⟨r', hr', hk⟩

lemma mem_unionKeys (k : String) (rows : List Row) :
    k ∈ unionKeys rows ↔ ∃ r ∈ rows, k ∈ r.map Prod.fst := by
  unfold unionKeys
  rw [mem_unionKeys_aux]
  simp

lemma get?_indexOf {l : List String} {c : String} (h : c ∈ l) :
    l[l.indexOf c]? = some c := by
  have hlt : l.indexOf c < l.length := List.indexOf_lt_length.mpr h
  rw [List.getElem?_eq_getElem hlt, List.getElem_indexOf hlt]

/-- The cell a `mkDF` row stores for a present column is the dict's value. -/
lemma cellAt_mkrow {cols : List String} {d : Row} {c : String} (h : c ∈ cols) :
    cellAt cols (cols.map (fun x => (List.lookup x d).getD .nan)) c =
      (List.lookup c d).getD .nan := by
  unfold cellAt
  rw [List.getElem?_map, get?_indexOf h, Option.map_some', Option.getD_some]

lemma cellAt_append_left {cols extra : List String} {row vals : List Value} {c : String}
    (hlen : row.length = cols.length) (h : c ∈ cols) :
    cellAt (cols ++ extra) (row ++ vals) c = cellAt cols row c := by
  unfold cellAt
  rw [List.indexOf_append_of_mem h]
  have hlt : cols.indexOf c < row.length := by
    rw [hlen]
    exact List.indexOf_lt_length.mpr h
  rw [List.getElem?_append_left hlt]

lemma mem_addCol_cols {x : String} {df : DF} {c : String} {v : Value}
    (h : x ∈ (addCol df c v).cols) : x = c ∨ x ∈ df.cols := by
  unfold addCol at h
  split at h
  · exact Or.inr h
  · rcases List.mem_append.mp h with h1 | h2
    · exact Or.inr h1
    · simp at h2
      exact Or.inl h2

/-- When both optional columns are absent, the synthesis loop appends them
both, each filled with the empty string. -/
lemma ensureOptionalCols_of_absent {df : DF}
    (h1 : "entry_rsi" ∉ df.cols) (h2 : "exit_rsi" ∉ df.cols) :
    ensureOptionalCols df =
      ⟨df.cols ++ ["entry_rsi", "exit_rsi"],
       df.rows.map (fun r => r ++ [.str "", .str ""])⟩ := by
  unfold ensureOptionalCols addCol
  rw [if_neg h1]
  have h2' : "exit_rsi" ∉ df.cols ++ ["entry_rsi"] := by
    intro hm
    rcases List.mem_append.mp hm with ha | hb
    · exact h2 ha
    · simp at hb
  simp only [if_neg h2']
  congr 1
  · simp
  · rw [List.map_map]
    apply List.map_congr_left
    intro r _
    simp

/-- Lemma: `addCol` appends some (possibly empty) column suffix whose entries are
all the given column/value pair. -/
lemma addCol_extends (df : DF) (c : String) (v : Value) :
    ∃ ext : List (String × Value),
      (addCol df c v).cols = df.cols ++ ext.map Prod.fst ∧
      (addCol df c v).rows = df.rows.map (fun r => r ++ ext.map Prod.snd) ∧
      ∀ kv ∈ ext, kv = (c, v) := by
  unfold addCol
  split
  · refine ⟨[], by simp, ?_, by simp⟩
    simp
  · exact ⟨[(c, v)], rfl, rfl, by simp⟩

lemma ensureOptionalCols_extends (df : DF) :
    ∃ ext : List (String × Value),
      (ensureOptionalCols df).cols = df.cols ++ ext.map Prod.fst ∧
      (ensureOptionalCols df).rows = df.rows.map (fun r => r ++ ext.map Prod.snd) ∧
      ∀ kv ∈ ext, kv = ("entry_rsi", Value.str "") ∨ kv = ("exit_rsi", Value.str "") := by
  obtain ⟨e1, hc1, hr1, hv1⟩ := addCol_extends df "entry_rsi" (.str "")
  obtain ⟨e2, hc2, hr2, hv2⟩ :=
    addCol_extends (addCol df "entry_rsi" (.str "")) "exit_rsi" (.str "")
  refine ⟨e1 ++ e2, ?_, ?_, ?_⟩
  · show (addCol (addCol df "entry_rsi" (.str "")) "exit_rsi" (.str "")).cols = _
    rw [hc2, hc1, List.map_append, List.append_assoc]
  · show (addCol (addCol df "entry_rsi" (.str "")) "exit_rsi" (.str "")).rows = _
    rw [hr2, hr1, List.map_map]
    apply List.map_congr_left
    intro r _
    simp [List.append_assoc]
  · intro kv hkv
    rcases List.mem_append.mp hkv with h | h
    · exact Or.inl (hv1 kv h)
    · exact Or.inr (hv2 kv h)

lemma selectCols_ok {df : DF} {cs : List String} (h : ∀ c ∈ cs, c ∈ df.cols) :
    selectCols df cs =
      .ok ⟨cs, df.rows.map (fun r => cs.map (fun c => cellAt df.cols r c))⟩ := by
  unfold selectCols
  rw [if_pos]
  exact List.all_eq_true.mpr (fun c hc => by
    simp only [List.contains, List.elem_iff]
    exact h c hc)

lemma selectCols_error {df : DF} {cs : List String} {c : String}
    (hc : c ∈ cs) (h : c ∉ df.cols) :
    selectCols df cs = .error "KeyError: columns not in index" := by
  unfold selectCols
  rw [if_neg]
  intro hall
  have := List.all_eq_true.mp hall c hc
  simp only [List.contains, List.elem_iff] at this
  exact h this

/-! Lemmas: fallible traversals. -/

lemma mapE_eq_ok {α β : Type} (f : α → Except String β) (g : α → β) (l : List α)
    (h : ∀ x ∈ l, f x = .ok (g x)) : mapE f l = .ok (l.map g) := by
  induction l with
  | nil => rfl
  | cons x xs ih =>
    unfold mapE
    rw [h x (List.mem_cons_self _ _), ih (fun y hy => h y (List.mem_cons_of_mem _ hy))]
    rfl

lemma setAtE_eq_ok {f : Value → Except String Value} {j : Nat} {r : List Value} {v w : Value}
    (hj : r[j]? = some v) (hf : f v = .ok w) : setAtE f j r = .ok (r.set j w) := by
  induction r generalizing j with
  | nil => simp at hj
  | cons a r ih =>
    cases j with
    | zero =>
      simp at hj
      subst hj
      unfold setAtE
      rw [hf]
      rfl
    | succ j =>
      simp at hj
      unfold setAtE
      rw [ih hj]
      rfl

lemma cellAt_append_right {cols : List String} {row : List Value} {c : String}
    (extra : List String) (vals : List Value)
    (hlen : row.length = cols.length) (h : c ∉ cols) :
    cellAt (cols ++ extra) (row ++ vals) c = (vals[extra.indexOf c]?).getD .nan := by
  unfold cellAt
  rw [List.indexOf_append_of_not_mem h]
  rw [List.getElem?_append_right (by omega)]
  congr 2
  omega

/-! Closed forms for the shaped trade table (used to state what the
rendering pipeline produces under the hypotheses of the claims). -/

/-- The cell of the reindexed (nine-column) table before profit formatting,
when the two optional RSI columns were absent from every row: a synthesized
empty string for those, otherwise the dict's value (NaN when missing). -/
def shapedRawCell (d : Row) (c : String) : Value :=
  if c = "entry_rsi" ∨ c = "exit_rsi" then .str ""
  else (List.lookup c d).getD .nan

/-- The two-decimal percent string the display pipeline produces for a
numeric `profit_pct` of `m / 10 ^ e`. -/
def pctString (m : Int) (e : Nat) : String :=
  String.mk (renderDec ((200 * m + 10 ^ e) / (2 * 10 ^ e : Int)) 2) ++ "%"

/-- The profit-formatting step on a shaped row: the cell at position 8
(the `profit_pct` column) is replaced by its two-decimal percent string. -/
def shapeProfit (row : List Value) : List Value :=
  match row[8]? with
  | some (Value.dec m e) => row.set 8 (.str (pctString m e))
  | _ => row

/-- Master lemma for the trade-details section: for a non-empty trade list
whose rows all lack `entry_rsi` and `exit_rsi`, have every other displayed
column present in some row, and carry a numeric `profit_pct` in every row,
the section renders the header, the shaped table, and the CSV download. -/
lemma tradesSection_eq (p : List (String × PVal)) (date : String) (trades : List Row)
    (hne : trades ≠ [])
    (hnoe : ∀ r ∈ trades, List.lookup "entry_rsi" r = none)
    (hnox : ∀ r ∈ trades, List.lookup "exit_rsi" r = none)
    (hreq : ∀ c ∈ display_columns, ¬(c = "entry_rsi" ∨ c = "exit_rsi") →
      ∃ r ∈ trades, (List.lookup c r).isSome)
    (hprofit : ∀ r ∈ trades, ∃ m e, List.lookup "profit_pct" r = some (.dec m e)) :
    tradesSection p date trades =
      ([Display.subheader "📋 Trade Details",
        Display.dataframe ⟨display_columns,
          trades.map (fun d => shapeProfit (display_columns.map (shapedRawCell d)))⟩,
        Display.download
          ("trades_" ++ removeSlashes (payloadField p "symbol") ++ date ++ ".csv")
          (toCsv (ensureOptionalCols (mkDF trades)))], none) := by
  have hniE : "entry_rsi" ∉ unionKeys trades := by
    intro hm
    obtain ⟨r, hr, hk⟩ := (mem_unionKeys _ _).mp hm
    exact (lookup_eq_none_iff _ _).mp (hnoe r hr) hk
  have hniX : "exit_rsi" ∉ unionKeys trades := by
    intro hm
    obtain ⟨r, hr, hk⟩ := (mem_unionKeys _ _).mp hm
    exact (lookup_eq_none_iff _ _).mp (hnox r hr) hk
  have hens : ensureOptionalCols (mkDF trades) =
      ⟨unionKeys trades ++ ["entry_rsi", "exit_rsi"],
       (mkDF trades).rows.map (fun r => r ++ [.str "", .str ""])⟩ :=
    ensureOptionalCols_of_absent hniE hniX
  have hmem : ∀ c ∈ display_columns, ¬(c = "entry_rsi" ∨ c = "exit_rsi") →
      c ∈ unionKeys trades := by
    intro c hc hopt
    obtain ⟨r, hr, hsome⟩ := hreq c hc hopt
    exact (mem_unionKeys _ _).mpr ⟨r, hr, (lookup_isSome_iff _ _).mp hsome⟩
  have hselmem : ∀ c ∈ display_columns, c ∈ (ensureOptionalCols (mkDF trades)).cols := by
    intro c hc
    rw [hens]
    by_cases hopt : c = "entry_rsi" ∨ c = "exit_rsi"
    · rcases hopt with h | h <;> subst h <;> simp
    · exact List.mem_append.mpr (Or.inl (hmem c hc hopt))
  have hrows : (ensureOptionalCols (mkDF trades)).rows.map
        (fun r => display_columns.map
          (fun c => cellAt (ensureOptionalCols (mkDF trades)).cols r c)) =
      trades.map (fun d => display_columns.map (shapedRawCell d)) := by
    rw [hens]
    show ((mkDF trades).rows.map _).map _ = _
    rw [List.map_map]
    unfold mkDF
    rw [List.map_map]
    apply List.map_congr_left
    intro d _hd
    apply List.map_congr_left
    intro c hc
    have hlen : ((unionKeys trades).map
        (fun x => (List.lookup x d).getD Value.nan)).length = (unionKeys trades).length :=
      List.length_map _ _
    show cellAt (unionKeys trades ++ ["entry_rsi", "exit_rsi"])
        ((unionKeys trades).map (fun x => (List.lookup x d).getD Value.nan) ++
          [Value.str "", Value.str ""]) c = shapedRawCell d c
    by_cases hopt : c = "entry_rsi" ∨ c = "exit_rsi"
    · have hnotin : c ∉ unionKeys trades := by
        rcases hopt with h | h <;> subst h <;> assumption
      rw [cellAt_append_right _ _ hlen hnotin]
      unfold shapedRawCell
      rw [if_pos hopt]
      rcases hopt with h | h <;> subst h <;> rfl
    · have hin : c ∈ unionKeys trades := hmem c hc hopt
      rw [cellAt_append_left hlen hin, cellAt_mkrow hin]
      unfold shapedRawCell
      rw [if_neg hopt]
  have hsel2 : selectCols (ensureOptionalCols (mkDF trades)) display_columns =
      .ok ⟨display_columns, trades.map (fun d => display_columns.map (shapedRawCell d))⟩ := by
    rw [selectCols_ok hselmem]
    exact congrArg Except.ok (by rw [DF.mk.injEq]; exact ⟨rfl, hrows⟩)
  have hmap : mapColE ⟨display_columns,
        trades.map (fun d => display_columns.map (shapedRawCell d))⟩
        "profit_pct" fmtPctCell =
      .ok ⟨display_columns,
        (trades.map (fun d => display_columns.map (shapedRawCell d))).map shapeProfit⟩ := by
    unfold mapColE
    have hidx : display_columns.indexOf "profit_pct" = 8 := by decide
    rw [hidx]
    rw [mapE_eq_ok _ shapeProfit _ ?_]
    · rfl
    · intro row hrow
      obtain ⟨d, hd, hrow⟩ := List.mem_map.mp hrow
      obtain ⟨m, e, hpe⟩ := hprofit d hd
      have hcell : row[8]? = some (.dec m e) := by
        rw [← hrow, List.getElem?_map]
        have h8 : display_columns[8]? = some "profit_pct" := rfl
        rw [h8, Option.map_some']
        unfold shapedRawCell
        rw [if_neg (by rintro (h | h) <;> simp at h), hpe]
        rfl
      have hf : fmtPctCell (Value.dec m e) = .ok (.str (pctString m e)) := rfl
      rw [setAtE_eq_ok hcell hf]
      unfold shapeProfit
      rw [hcell]
  unfold tradesSection
  rw [if_neg (by rw [Bool.not_eq_true, List.isEmpty_eq_false]; exact hne)]
  split
  · rename_i e heq
    rw [hsel2] at heq
    exact absurd heq (by simp)
  · rename_i sel heq
    rw [hsel2] at heq
    injection heq with h
    subst h
    split
    · rename_i e heq2
      rw [hmap] at heq2
      exact absurd heq2 (by simp)
    · rename_i t heq2
      rw [hmap] at heq2
      injection heq2 with h2
      subst h2
      rw [List.map_map]
      rfl

lemma data_mk (l : List Char) : (String.mk l).data = l := rfl

lemma runSubmit_ok (p : List (String × PVal)) (date : String) (r : HttpResponse) :
    runSubmit p date (.ok r) =
      if r.status = 200 then
        match renderSuccess p date r.json with
        | (ds, none) => ds
        | (ds, some e) =>
          ds ++ [Display.error ("Connection error: " ++ e),
                 Display.info "Ensure the backend server is running on http://127.0.0.1:8080"]
      else [Display.error ("Error: " ++ r.text)] := rfl

lemma runSubmit_transport (p : List (String × PVal)) (date : String) (e : String) :
    runSubmit p date (.error e) =
      [Display.error ("Connection error: " ++ e),
       Display.info "Ensure the backend server is running on http://127.0.0.1:8080"] := rfl

/-- Grid round trip: re-parsing the exported CSV recovers the header line
(the column names) followed by each row's rendered cells, provided no cell
or column name contains a comma or a newline (pandas would quote those; the
trade data here never contains them). -/
theorem parseCsv_toCsv (df : DF) (hcne : df.cols ≠ [])
    (hcol : ∀ c ∈ df.cols, ',' ∉ c.data ∧ '\n' ∉ c.data)
    (hcell : ∀ r ∈ df.rows, ∀ v ∈ r, ',' ∉ renderCell v ∧ '\n' ∉ renderCell v)
    (hrne : ∀ r ∈ df.rows, r ≠ []) :
    parseCsv (toCsv df) =
      df.cols :: df.rows.map (fun r => r.map (fun v => String.mk (renderCell v))) := by
  have hgridprop : ∀ cells ∈ ((df.cols.map (fun s => s.data)) ::
      df.rows.map (fun r => r.map renderCell)),
      cells ≠ [] ∧ ∀ xs ∈ cells, ',' ∉ xs ∧ '\n' ∉ xs := by
    intro cells hcells
    rcases List.mem_cons.mp hcells with h | h
    · subst h
      refine ⟨by simpa using hcne, ?_⟩
      intro xs hxs
      obtain ⟨c, hc, rfl⟩ := List.mem_map.mp hxs
      exact hcol c hc
    · obtain ⟨r, hr, rfl⟩ := List.mem_map.mp h
      refine ⟨by simpa using hrne r hr, ?_⟩
      intro xs hxs
      obtain ⟨v, hv, rfl⟩ := List.mem_map.mp hxs
      exact hcell r hr v hv
  have hline : ∀ line ∈ ((df.cols.map (fun s => s.data)) ::
      df.rows.map (fun r => r.map renderCell)).map (joinWith ','), '\n' ∉ line := by
    intro line hl
    obtain ⟨cells, hc, rfl⟩ := List.mem_map.mp hl
    exact not_mem_joinWith (by decide) (fun xs hxs => ((hgridprop cells hc).2 xs hxs).2)
  unfold parseCsv toCsv
  rw [data_mk, splitOnChar_append_last,
    splitOnChar_joinWith (by simp) hline,
    dropTrailingEmpty_append_empty, List.map_map, List.map_cons]
  congr 1
  · show (splitOnChar ',' (joinWith ',' (df.cols.map (fun s => s.data)))).map String.mk = _
    rw [splitOnChar_joinWith (hgridprop _ (List.mem_cons_self _ _)).1
      (fun xs hxs => ((hgridprop _ (List.mem_cons_self _ _)).2 xs hxs).1)]
    rw [List.map_map]
    have hmk : ∀ c ∈ df.cols, (String.mk ∘ fun s => String.data s) c = id c := fun c _ => rfl
    rw [List.map_congr_left hmk, List.map_id]
  · rw [List.map_map]
    apply List.map_congr_left
    intro r hr
    have hmem : r.map renderCell ∈ ((df.cols.map (fun s => s.data)) ::
        df.rows.map (fun x => x.map renderCell)) :=
      List.mem_cons_of_mem _ (List.mem_map.mpr ⟨r, hr, rfl⟩)
    show (splitOnChar ',' (joinWith ',' (r.map renderCell))).map String.mk = _
    rw [splitOnChar_joinWith (hgridprop _ hmem).1
      (fun xs hxs => ((hgridprop _ hmem).2 xs hxs).1)]
    rw [List.map_map]
    rfl

/-! Concrete example data used by witnesses and counterexamples. -/

/-- A session in which exchanges were fetched, an exchange is selected, and
no symbol has been fetched or selected yet. -/
def exState : SessionState := ⟨["binance", "kraken"], none, some "binance", none⟩

/-- Widget values matching the §8 scenario: strategy ZEN with the custom-RSI
toggle on. -/
def exWidgets : Widgets :=
  ⟨"default_user", 14, (30, 0), (70, 0), "long", "ZEN", 20, true, false⟩

/-- One completed trade as the backend returns it for a non-RSI strategy:
no `entry_rsi`/`exit_rsi` keys, numeric `profit_pct` (2.5). -/
def exTrade : Row :=
  [("symbol", .str "BTC/USDT"), ("trade_type", .str "long"),
   ("entry_time", .str "2025-01-01 00:00"), ("entry_price", .dec 42 0),
   ("exit_time", .str "2025-01-01 01:00"), ("exit_price", .dec 43 0),
   ("profit_pct", .dec 25 1)]

/-- A malformed trade row: the required `entry_time` key is absent. -/
def exTradeNoEntryTime : Row :=
  [("symbol", .str "BTC/USDT"), ("trade_type", .str "long"),
   ("entry_price", .dec 42 0), ("exit_time", .str "2025-01-01 01:00"),
   ("exit_price", .dec 43 0), ("profit_pct", .dec 25 1)]

def emptyTradeResponse : TradeResponse := ⟨[], [], "", []⟩

/-- A successful `/trade` response carrying one winning trade. -/
def exRespOK : HttpResponse :=
  ⟨200, "", ⟨[exTrade], [], "",
    [("total_trades", .dec 1 0), ("winning_trades", .dec 1 0),
     ("total_profit_pct", .dec 25 1), ("avg_profit_per_trade", .dec 25 1)]⟩⟩

/-- The file names of the download buttons among rendered elements. -/
def downloadNames (ds : List Display) : List String :=
  ds.filterMap (fun d => match d with | .download fn _ => some fn | _ => none)

end Backtester

namespace Backtester

/-! Claim theorems. -/

/-- Claim C1 (code bug witnessed): for a 200 response whose summary carries
an explicit `total_trades = 0`, the win-rate display does NOT guard the
division — `summary.get('total_trades', 1)` only defaults when the key is
absent — so `int(winning/total*100)` raises ZeroDivisionError, which the
outer handler shows as a connection error instead of rendering `0%`. -/
theorem c1_zero_total_trades_divzero :
    runSubmit (buildPayload exState exWidgets) "20250101"
      (.ok ⟨200, "", ⟨[], [], "",
        [("total_trades", .dec 0 0), ("winning_trades", .dec 0 0),
         ("total_profit_pct", .dec 0 0), ("avg_profit_per_trade", .dec 0 0)]⟩⟩) =
      [Display.subheader "Backtest Results for BTC/USDT on binance",
       Display.metric "Total Trades" "0",
       Display.error "Connection error: division by zero",
       Display.info "Ensure the backend server is running on http://127.0.0.1:8080"] := by
  rfl

/-- Claim C2 counterexample: a session run that successfully displays a
backtest result, followed by a failed resubmission from the resulting
session state. The failed run shows only the error text; the previously
displayed result view (its header, or any other element of it) is gone,
because no backtest result is ever stored in the session state. -/
theorem c2_prior_result_not_preserved :
    Display.subheader "Backtest Results for BTC/USDT on binance" ∈
      (runTab1Submit exState exWidgets "20250101" (.ok exRespOK)).2.2 ∧
    (runTab1Submit (runTab1Submit exState exWidgets "20250101" (.ok exRespOK)).1
        exWidgets "20250102"
        (.ok ⟨500, "strategy error: invalid period", emptyTradeResponse⟩)).2.2 =
      [Display.error "Error: strategy error: invalid period"] ∧
    Display.subheader "Backtest Results for BTC/USDT on binance" ∉
      (runTab1Submit (runTab1Submit exState exWidgets "20250101" (.ok exRespOK)).1
        exWidgets "20250102"
        (.ok ⟨500, "strategy error: invalid period", emptyTradeResponse⟩)).2.2 := by
  refine ⟨?_, rfl, ?_⟩ <;> decide

/-- Claim C2 (amended): the script stores no backtest result at all, so a
failed submission leaves the session state unchanged and displays only the
server's error text — the previously displayed result is not shown again
(nothing is cleared because nothing was stored). -/
theorem c2_failed_run_state_and_display (st : SessionState) (w : Widgets) (date : String)
    (r : HttpResponse) (h : r.status ≠ 200) :
    runTab1Submit st w date (.ok r) =
      (st, [buildPayload st w], [Display.error ("Error: " ++ r.text)]) := by
  unfold runTab1Submit
  rw [runSubmit_ok, if_neg h]

theorem c2_failed_run_state_and_display_witness :
    runTab1Submit exState exWidgets "20250102"
      (.ok ⟨500, "strategy error: invalid period", emptyTradeResponse⟩) =
      (exState, [buildPayload exState exWidgets],
       [Display.error "Error: strategy error: invalid period"]) :=
  c2_failed_run_state_and_display exState exWidgets "20250102" _ (by decide)

/-- Claim C3: for a non-empty trade list in which every row lacks both
optional RSI columns (and the required columns occur in the data), the
shaped trade table has exactly the nine display columns in order, the two
synthesized columns hold empty-string placeholders in every row, and each
row's profit_pct cell is the two-decimal percent string of its numeric
value. -/
theorem c3_shaped_trade_table (p : List (String × PVal)) (date : String) (trades : List Row)
    (hne : trades ≠ [])
    (hnoe : ∀ r ∈ trades, List.lookup "entry_rsi" r = none)
    (hnox : ∀ r ∈ trades, List.lookup "exit_rsi" r = none)
    (hreq : ∀ c ∈ display_columns, ¬(c = "entry_rsi" ∨ c = "exit_rsi") →
      ∃ r ∈ trades, (List.lookup c r).isSome)
    (hprofit : ∀ r ∈ trades, ∃ m e, List.lookup "profit_pct" r = some (.dec m e)) :
    ∃ df : DF, Display.dataframe df ∈ (tradesSection p date trades).1 ∧
      df.cols = display_columns ∧
      df.rows.length = trades.length ∧
      (∀ row ∈ df.rows, row[4]? = some (Value.str "") ∧ row[7]? = some (Value.str "")) ∧
      (∀ (i : Nat) (d : Row), trades[i]? = some d → ∀ (m : Int) (e : Nat),
        List.lookup "profit_pct" d = some (Value.dec m e) →
        ∃ (row : List Value) (s : String), df.rows[i]? = some row ∧
          fmt2f (Value.dec m e) = .ok s ∧ row[8]? = some (Value.str (s ++ "%"))) := by
  have hcell : ∀ d ∈ trades, ∀ m e, List.lookup "profit_pct" d = some (.dec m e) →
      (display_columns.map (shapedRawCell d))[8]? = some (.dec m e) := by
    intro d _hd m e hpe
    rw [List.getElem?_map, show display_columns[8]? = some "profit_pct" from rfl,
      Option.map_some']
    unfold shapedRawCell
    rw [if_neg (by rintro (h | h) <;> simp at h), hpe]
    rfl
  have hsp : ∀ d ∈ trades, ∀ m e, List.lookup "profit_pct" d = some (.dec m e) →
      shapeProfit (display_columns.map (shapedRawCell d)) =
        (display_columns.map (shapedRawCell d)).set 8 (.str (pctString m e)) := by
    intro d hd m e hpe
    unfold shapeProfit
    rw [hcell d hd m e hpe]
  rw [tradesSection_eq p date trades hne hnoe hnox hreq hprofit]
  refine ⟨⟨display_columns,
    trades.map (fun d => shapeProfit (display_columns.map (shapedRawCell d)))⟩,
    by simp, rfl, List.length_map _ _, ?_, ?_⟩
  · intro row hrow
    obtain ⟨d, hd, hrow⟩ := List.mem_map.mp hrow
    obtain ⟨m, e, hpe⟩ := hprofit d hd
    rw [← hrow, hsp d hd m e hpe]
    constructor
    · rw [List.getElem?_set_ne (by omega), List.getElem?_map,
        show display_columns[4]? = some "entry_rsi" from rfl, Option.map_some']
      rfl
    · rw [List.getElem?_set_ne (by omega), List.getElem?_map,
        show display_columns[7]? = some "exit_rsi" from rfl, Option.map_some']
      rfl
  · intro i d hid m e hpe
    have hd : d ∈ trades := by
      obtain ⟨hlt, heq⟩ := List.getElem?_eq_some.mp hid
      exact heq ▸ List.getElem_mem hlt
    refine ⟨(display_columns.map (shapedRawCell d)).set 8 (.str (pctString m e)),
      String.mk (renderDec ((200 * m + 10 ^ e) / (2 * 10 ^ e : Int)) 2), ?_, rfl, ?_⟩
    · rw [List.getElem?_map, hid, Option.map_some', hsp d hd m e hpe]
    · rw [List.getElem?_set_self (by rw [List.length_map]; decide)]
      rfl

theorem c3_shaped_trade_table_witness :
    ∃ df : DF, Display.dataframe df ∈
        (tradesSection (buildPayload exState exWidgets) "20250101" [exTrade]).1 ∧
      df.cols = display_columns ∧
      df.rows.length = [exTrade].length ∧
      (∀ row ∈ df.rows, row[4]? = some (Value.str "") ∧ row[7]? = some (Value.str "")) ∧
      (∀ (i : Nat) (d : Row), [exTrade][i]? = some d → ∀ (m : Int) (e : Nat),
        List.lookup "profit_pct" d = some (Value.dec m e) →
        ∃ (row : List Value) (s : String), df.rows[i]? = some row ∧
          fmt2f (Value.dec m e) = .ok s ∧ row[8]? = some (Value.str (s ++ "%"))) :=
  c3_shaped_trade_table (buildPayload exState exWidgets) "20250101" [exTrade]
    (by decide) (by decide) (by decide) (by decide)
    (by
      intro r hr
      rw [List.mem_singleton] at hr
      subst hr
      exact ⟨25, 1, rfl⟩)

/-- Claim C10: only the two optional RSI columns are synthesized; if any
other displayed column is missing from every row of a non-empty trade list,
the column reindexing step raises a KeyError (surfaced via the exception
path) instead of degrading to a placeholder table. -/
theorem c10_missing_required_column_raises (p : List (String × PVal)) (date : String)
    (trades : List Row) (c : String)
    (hne : trades ≠ [])
    (hc : c ∈ display_columns) (hce : c ≠ "entry_rsi") (hcx : c ≠ "exit_rsi")
    (hmiss : ∀ r ∈ trades, List.lookup c r = none) :
    selectCols (ensureOptionalCols (mkDF trades)) display_columns =
      .error "KeyError: columns not in index" ∧
    tradesSection p date trades =
      ([Display.subheader "📋 Trade Details"], some "KeyError: columns not in index") := by
  have hnotin : c ∉ (ensureOptionalCols (mkDF trades)).cols := by
    intro hm
    rcases mem_addCol_cols hm with h | h
    · exact hcx h
    rcases mem_addCol_cols h with h2 | h2
    · exact hce h2
    · obtain ⟨r, hr, hk⟩ := (mem_unionKeys _ _).mp h2
      exact (lookup_eq_none_iff _ _).mp (hmiss r hr) hk
  have hsel := selectCols_error hc hnotin
  refine ⟨hsel, ?_⟩
  unfold tradesSection
  rw [if_neg (by rw [Bool.not_eq_true, List.isEmpty_eq_false]; exact hne)]
  split
  · rename_i e heq
    rw [hsel] at heq
    injection heq with h
    subst h
    rfl
  · rename_i sel heq
    rw [hsel] at heq
    exact absurd heq (by simp)

theorem c10_missing_required_column_raises_witness :
    selectCols (ensureOptionalCols (mkDF [exTradeNoEntryTime])) display_columns =
      .error "KeyError: columns not in index" ∧
    tradesSection (buildPayload exState exWidgets) "20250101" [exTradeNoEntryTime] =
      ([Display.subheader "📋 Trade Details"], some "KeyError: columns not in index") :=
  c10_missing_required_column_raises (buildPayload exState exWidgets) "20250101"
    [exTradeNoEntryTime] "entry_time" (by decide) (by decide) (by decide) (by decide)
    (by decide)

/-- Claim C8 counterexample: at a concrete successful run (symbol
"BTC/USDT", client date 20250101), the only download offered is named
`trades_BTCUSDT20250101.csv` — frontend.py line 209 concatenates the
slash-stripped symbol and the date with no separator — so the claimed
pattern `trades_BTCUSDT_20250101.csv` (with an underscore before the date)
is not produced. -/
theorem c8_filename_counterexample :
    downloadNames
        (tradesSection (buildPayload exState exWidgets) "20250101" [exTrade]).1 =
      ["trades_BTCUSDT20250101.csv"] ∧
    "trades_BTCUSDT_20250101.csv" ∉
      downloadNames
        (tradesSection (buildPayload exState exWidgets) "20250101" [exTrade]).1 := by
  constructor
  · rfl
  · decide

/-- Claim C8 (amended): the download file name is
`trades_{symbol-with-slashes-removed}{YYYYMMDD}.csv` — with no separator
between the symbol and the date — where the date is the client-side current
date taken while rendering the results of that submission (the same
interaction, not a backend timestamp). -/
theorem c8_filename_pattern (p : List (String × PVal)) (date : String) (trades : List Row)
    (hne : trades ≠ [])
    (hnoe : ∀ r ∈ trades, List.lookup "entry_rsi" r = none)
    (hnox : ∀ r ∈ trades, List.lookup "exit_rsi" r = none)
    (hreq : ∀ c ∈ display_columns, ¬(c = "entry_rsi" ∨ c = "exit_rsi") →
      ∃ r ∈ trades, (List.lookup c r).isSome)
    (hprofit : ∀ r ∈ trades, ∃ m e, List.lookup "profit_pct" r = some (.dec m e)) :
    ∃ csv, Display.download
        ("trades_" ++ removeSlashes (payloadField p "symbol") ++ date ++ ".csv") csv ∈
      (tradesSection p date trades).1 := by
  rw [tradesSection_eq p date trades hne hnoe hnox hreq hprofit]
  exact ⟨toCsv (ensureOptionalCols (mkDF trades)), by simp⟩

theorem c8_filename_pattern_witness :
    ∃ csv, Display.download
        ("trades_" ++
          removeSlashes (payloadField (buildPayload exState exWidgets) "symbol") ++
          "20250101" ++ ".csv") csv ∈
      (tradesSection (buildPayload exState exWidgets) "20250101" [exTrade]).1 :=
  c8_filename_pattern (buildPayload exState exWidgets) "20250101" [exTrade]
    (by decide) (by decide) (by decide) (by decide)
    (by
      intro r hr
      rw [List.mem_singleton] at hr
      subst hr
      exact ⟨25, 1, rfl⟩)

/-- Claim C4: the CSV export is serialized from the pre-formatting frame
(numeric `profit_pct`, not the percent strings of the displayed copy) with a
header row, and re-parsing it reproduces one record per trade in order whose
`profit_pct` cell parses back to exactly the original numeric value. -/
theorem c4_csv_export_roundtrip (trades : List Row)
    (hne : trades ≠ [])
    (hsafe : ∀ r ∈ trades, ∀ kv ∈ r,
      (',' ∉ kv.1.data ∧ '\n' ∉ kv.1.data) ∧
      (',' ∉ renderCell kv.2 ∧ '\n' ∉ renderCell kv.2))
    (hprofit : ∀ r ∈ trades, ∃ m e, List.lookup "profit_pct" r = some (Value.dec m e)) :
    (parseCsv (toCsv (ensureOptionalCols (mkDF trades)))).head? =
      some (ensureOptionalCols (mkDF trades)).cols ∧
    (parseCsv (toCsv (ensureOptionalCols (mkDF trades)))).length = trades.length + 1 ∧
    ∃ j : Nat, (ensureOptionalCols (mkDF trades)).cols[j]? = some "profit_pct" ∧
      (parseCsv (toCsv (ensureOptionalCols (mkDF trades)))).tail.map
          (fun row => (row[j]?).bind (fun s => parseNumber s.data)) =
        trades.map (fun r => (List.lookup "profit_pct" r).bind Value.toRat) := by
  obtain ⟨ext, hce, hre, hve⟩ := ensureOptionalCols_extends (mkDF trades)
  have hmkcols : (mkDF trades).cols = unionKeys trades := rfl
  have hmkrows : (mkDF trades).rows =
      trades.map (fun d => (unionKeys trades).map (fun c => (List.lookup c d).getD .nan)) :=
    rfl
  have hpmem : "profit_pct" ∈ unionKeys trades := by
    obtain ⟨r0, hr0⟩ := List.exists_mem_of_ne_nil trades hne
    obtain ⟨m, e, hpe⟩ := hprofit r0 hr0
    refine (mem_unionKeys _ _).mpr ⟨r0, hr0, (lookup_isSome_iff _ _).mp ?_⟩
    rw [hpe]
    rfl
  have hucne : unionKeys trades ≠ [] := List.ne_nil_of_mem hpmem
  have hextkeys : ∀ s ∈ ext.map Prod.fst, ',' ∉ s.data ∧ '\n' ∉ s.data := by
    intro s hs
    obtain ⟨kv, hkv, rfl⟩ := List.mem_map.mp hs
    rcases hve kv hkv with h | h <;> subst h <;> exact ⟨by decide, by decide⟩
  have hextvals : ∀ v ∈ ext.map Prod.snd, renderCell v = [] := by
    intro v hv
    obtain ⟨kv, hkv, rfl⟩ := List.mem_map.mp hv
    rcases hve kv hkv with h | h <;> subst h <;> rfl
  have hcne : (ensureOptionalCols (mkDF trades)).cols ≠ [] := by
    rw [hce, hmkcols]
    intro h
    exact hucne (List.append_eq_nil.mp h).1
  have hcolsafe : ∀ c ∈ (ensureOptionalCols (mkDF trades)).cols,
      ',' ∉ c.data ∧ '\n' ∉ c.data := by
    intro c hc
    rw [hce, hmkcols] at hc
    rcases List.mem_append.mp hc with hL | hR
    · obtain ⟨r, hr, hk⟩ := (mem_unionKeys _ _).mp hL
      obtain ⟨kv, hkv, hfst⟩ := List.mem_map.mp hk
      exact hfst ▸ (hsafe r hr kv hkv).1
    · exact hextkeys c hR
  have hcellsafe : ∀ r' ∈ (ensureOptionalCols (mkDF trades)).rows, ∀ v ∈ r',
      ',' ∉ renderCell v ∧ '\n' ∉ renderCell v := by
    intro r' hr'
    rw [hre, hmkrows] at hr'
    obtain ⟨rbase, hrbase, rfl⟩ := List.mem_map.mp hr'
    obtain ⟨d, hd, rfl⟩ := List.mem_map.mp hrbase
    intro v hv
    rcases List.mem_append.mp hv with hL | hRt
    · obtain ⟨c, _hcmem, rfl⟩ := List.mem_map.mp hL
      cases hlk : List.lookup c d with
      | none => exact ⟨by simp [renderCell], by simp [renderCell]⟩
      | some w => exact (hsafe d hd (c, w) (mem_of_lookup_eq_some hlk)).2
    · rw [hextvals v hRt]
      exact ⟨by simp, by simp⟩
  have hrne : ∀ r' ∈ (ensureOptionalCols (mkDF trades)).rows, r' ≠ [] := by
    intro r' hr'
    rw [hre, hmkrows] at hr'
    obtain ⟨rbase, hrbase, rfl⟩ := List.mem_map.mp hr'
    obtain ⟨d, hd, rfl⟩ := List.mem_map.mp hrbase
    intro h
    exact hucne (List.map_eq_nil_iff.mp (List.append_eq_nil.mp h).1)
  have hgrid := parseCsv_toCsv (ensureOptionalCols (mkDF trades)) hcne hcolsafe hcellsafe hrne
  have hjlt : (unionKeys trades).indexOf "profit_pct" < (unionKeys trades).length :=
    List.indexOf_lt_length.mpr hpmem
  refine ⟨by rw [hgrid]; rfl, ?_, (unionKeys trades).indexOf "profit_pct", ?_, ?_⟩
  · rw [hgrid]
    simp only [List.length_cons, List.length_map]
    rw [hre, hmkrows]
    simp only [List.length_map]
  · rw [hce, hmkcols, List.getElem?_append_left hjlt, get?_indexOf hpmem]
  · rw [hgrid, List.tail_cons, hre, hmkrows, List.map_map, List.map_map, List.map_map]
    apply List.map_congr_left
    intro d hd
    obtain ⟨m, e, hpe⟩ := hprofit d hd
    show ((((unionKeys trades).map (fun c => (List.lookup c d).getD .nan) ++
        ext.map Prod.snd).map
          (fun v => String.mk (renderCell v)))[(unionKeys trades).indexOf "profit_pct"]?).bind
        (fun s => parseNumber s.data) =
      (List.lookup "profit_pct" d).bind Value.toRat
    rw [List.getElem?_map, List.getElem?_append_left (by rw [List.length_map]; exact hjlt),
      List.getElem?_map, get?_indexOf hpmem]
    simp only [Option.map_some', Option.some_bind]
    rw [hpe]
    simp only [Option.getD_some, Option.some_bind, data_mk]
    show parseNumber (renderDec m e) = Value.toRat (Value.dec m e)
    rw [parseNumber_renderDec]
    rfl

theorem c4_csv_export_roundtrip_witness :
    (parseCsv (toCsv (ensureOptionalCols (mkDF [exTrade])))).head? =
      some (ensureOptionalCols (mkDF [exTrade])).cols ∧
    (parseCsv (toCsv (ensureOptionalCols (mkDF [exTrade])))).length = [exTrade].length + 1 ∧
    ∃ j : Nat, (ensureOptionalCols (mkDF [exTrade])).cols[j]? = some "profit_pct" ∧
      (parseCsv (toCsv (ensureOptionalCols (mkDF [exTrade])))).tail.map
          (fun row => (row[j]?).bind (fun s => parseNumber s.data)) =
        [exTrade].map (fun r => (List.lookup "profit_pct" r).bind Value.toRat) :=
  c4_csv_export_roundtrip [exTrade] (by decide) (by decide)
    (by
      intro r hr
      rw [List.mem_singleton] at hr
      subst hr
      exact ⟨25, 1, rfl⟩)

/-- Claim C5: a non-200 `/trade` response surfaces the server body text
verbatim (as the suffix of the single error message shown), a transport
failure surfaces a connection-error message plus the backend hint, and in
both cases exactly one request was issued (no retry) and the failure is the
displayed outcome, not silently dropped. -/
theorem c5_trade_failures_surfaced (st : SessionState) (w : Widgets) (date : String) :
    (∀ r : HttpResponse, r.status ≠ 200 →
      runTab1Submit st w date (.ok r) =
        (st, [buildPayload st w], [Display.error ("Error: " ++ r.text)])) ∧
    (∀ e : String,
      runTab1Submit st w date (.error e) =
        (st, [buildPayload st w],
         [Display.error ("Connection error: " ++ e),
          Display.info "Ensure the backend server is running on http://127.0.0.1:8080"])) := by
  constructor
  · intro r h
    unfold runTab1Submit
    rw [runSubmit_ok, if_neg h]
  · intro e
    rfl

theorem c5_trade_failures_surfaced_witness :
    runTab1Submit exState exWidgets "20250101"
      (.ok ⟨500, "strategy error: invalid period", emptyTradeResponse⟩) =
      (exState, [buildPayload exState exWidgets],
       [Display.error "Error: strategy error: invalid period"]) ∧
    runTab1Submit exState exWidgets "20250101" (.error "backend unreachable") =
      (exState, [buildPayload exState exWidgets],
       [Display.error "Connection error: backend unreachable",
        Display.info "Ensure the backend server is running on http://127.0.0.1:8080"]) :=
  ⟨(c5_trade_failures_surfaced exState exWidgets "20250101").1 _ (by decide),
   (c5_trade_failures_surfaced exState exWidgets "20250101").2 "backend unreachable"⟩

/-- Claim C6: the request payload always carries exactly the eleven fields in
order, with the RSI period and both thresholds taken from the widgets
whatever the strategy and toggles are, and the symbol defaults to
"BTC/USDT" when none has been fetched/selected. -/
theorem c6_payload_complete (st : SessionState) (w : Widgets) :
    (buildPayload st w).map Prod.fst =
      ["exchange", "symbol", "username", "rsi_period", "buy_threshold", "sell_threshold",
       "trade_type", "strategy", "ma_period", "use_scratch_rsi", "use_csv"] ∧
    List.lookup "rsi_period" (buildPayload st w) = some (.i w.rsi_period) ∧
    List.lookup "buy_threshold" (buildPayload st w) =
      some (.f w.buy_threshold.1 w.buy_threshold.2) ∧
    List.lookup "sell_threshold" (buildPayload st w) =
      some (.f w.sell_threshold.1 w.sell_threshold.2) ∧
    List.lookup "strategy" (buildPayload st w) = some (.s w.strategy) ∧
    List.lookup "use_scratch_rsi" (buildPayload st w) = some (.b w.use_scratch_rsi) ∧
    (st.selected_symbol = none →
      List.lookup "symbol" (buildPayload st w) = some (.s "BTC/USDT")) := by
  refine ⟨rfl, rfl, rfl, rfl, rfl, rfl, ?_⟩
  intro h
  unfold buildPayload
  rw [h]
  rfl

theorem c6_payload_complete_witness :
    (buildPayload exState exWidgets).map Prod.fst =
      ["exchange", "symbol", "username", "rsi_period", "buy_threshold", "sell_threshold",
       "trade_type", "strategy", "ma_period", "use_scratch_rsi", "use_csv"] ∧
    List.lookup "rsi_period" (buildPayload exState exWidgets) = some (.i 14) ∧
    List.lookup "symbol" (buildPayload exState exWidgets) = some (.s "BTC/USDT") := by
  have h := c6_payload_complete exState exWidgets
  exact ⟨h.1, h.2.1, h.2.2.2.2.2.2 rfl⟩

/-- Claim C7: fetching symbols for a second exchange after a first successful
fetch replaces the stored symbol set with exactly the second response's
symbols — never a union or merge. -/
theorem c7_symbols_destructive_replacement (st : SessionState) (exA exB : String)
    (rA rB : SymbolsHttpResponse) (hA : rA.status = 200) (hB : rB.status = 200) :
    ((runFetchSymbols (runFetchSymbols st exA rA).1 exB rB).1).symbols =
      some rB.symbols := by
  unfold runFetchSymbols
  rw [if_pos hA, if_pos hB]

theorem c7_symbols_destructive_replacement_witness :
    ((runFetchSymbols (runFetchSymbols exState "binance" ⟨200, ["BTC/USDT", "ETH/USDT"]⟩).1
        "kraken" ⟨200, ["XBT/USD"]⟩).1).symbols = some ["XBT/USD"] :=
  c7_symbols_destructive_replacement exState "binance" "kraken" _ _ (by decide) (by decide)

/-- Claim C9: a failed (non-200) symbol fetch stores the empty list,
discarding any previously fetched symbol set, and shows the error box. -/
theorem c9_failed_symbol_fetch_clears (st : SessionState) (ex : String)
    (r : SymbolsHttpResponse) (h : r.status ≠ 200) :
    (runFetchSymbols st ex r).1.symbols = some [] ∧
    (runFetchSymbols st ex r).2 = [Display.error "Error fetching symbols."] := by
  unfold runFetchSymbols
  rw [if_neg h]
  exact ⟨rfl, rfl⟩

theorem c9_failed_symbol_fetch_clears_witness :
    (runFetchSymbols ⟨["binance", "kraken"], some ["BTC/USDT", "ETH/USDT"],
        some "kraken", some "BTC/USDT"⟩ "kraken" ⟨503, []⟩).1.symbols = some [] ∧
    (runFetchSymbols ⟨["binance", "kraken"], some ["BTC/USDT", "ETH/USDT"],
        some "kraken", some "BTC/USDT"⟩ "kraken" ⟨503, []⟩).2 =
      [Display.error "Error fetching symbols."] :=
  c9_failed_symbol_fetch_clears _ "kraken" _ (by decide)

end Backtester
